import Mathlib

/-!
Shallow embedding of the attendance-tracker core (src/src/App.tsx): the policy
table, the status classifier, the record-store mutations over the employee
collection, the persistence adapter (JSON-level encode/decode with defensive
per-field defaulting), the normalization pass, and the retention sweep.

Machine-level conventions of the embedding:
* JS strings are Lean `String`; JS numbers that the claims touch are integers,
  modelled as `Int` (the stored point values are small integers).
* `crypto.randomUUID()` is nondeterministic; operations that call it take the
  generated id (or an id supply `Nat → String`) as an explicit parameter.
* `new Date(s)` / "today" are modelled at day granularity: an abstract parse
  function `pd : String → Option Int` maps a date string to its day number
  (`none` when `new Date(s).getTime()` is `NaN`), and `today : Int` is the day
  number of the current local midnight.  `todayISO()` is a string parameter.
* Persisted data is modelled by a `Json` value tree; the raw-string layer is a
  parse parameter `parseJson : String → Option Json` (`none` when `JSON.parse`
  throws).
-/

namespace Attendance

/-- The nine infraction categories (the `InfractionType` string union). -/
inductive InfractionType where
  | callOutPriorToShift
  | callOutAfterShiftStarts
  | noCallNoShow
  | tardy16to59
  | tardy60plus
  | earlyDeparture16to59
  | earlyDeparture60plus
  | lateReturn16to59
  | lateReturn60plus
deriving DecidableEq, Repr

/-- The literal string each category is stored as in the source. -/
def typeStr : InfractionType → String
  | .callOutPriorToShift => "Call Out (Prior to shift)"
  | .callOutAfterShiftStarts => "Call Out (After shift starts)"
  | .noCallNoShow => "No Call / No Show"
  | .tardy16to59 => "Tardy (16-59 min)"
  | .tardy60plus => "Tardy (60+ min)"
  | .earlyDeparture16to59 => "Early Departure (16-59 min)"
  | .earlyDeparture60plus => "Early Departure (60+ min)"
  | .lateReturn16to59 => "Late Return (16-59 min)"
  | .lateReturn60plus => "Late Return (60+ min)"

/-- Source `pointsForType` (App.tsx:155-176): the fixed policy table. -/
def pointsForType : InfractionType → Int
  | .callOutPriorToShift => 3
  | .callOutAfterShiftStarts => 8
  | .noCallNoShow => 8
  | .tardy16to59 => 1
  | .tardy60plus => 2
  | .earlyDeparture16to59 => 1
  | .earlyDeparture60plus => 2
  | .lateReturn16to59 => 1
  | .lateReturn60plus => 2

/-- The same switch keyed on the runtime string, as it executes on decoded
data; `none` is the fall-through (`undefined`) for a string outside the nine
cases. -/
def pointsForTypeStr (s : String) : Option Int :=
  if s = "Call Out (Prior to shift)" then some 3
  else if s = "Call Out (After shift starts)" then some 8
  else if s = "No Call / No Show" then some 8
  else if s = "Tardy (16-59 min)" then some 1
  else if s = "Tardy (60+ min)" then some 2
  else if s = "Early Departure (16-59 min)" then some 1
  else if s = "Early Departure (60+ min)" then some 2
  else if s = "Late Return (16-59 min)" then some 1
  else if s = "Late Return (60+ min)" then some 2
  else none

/-- Source `statusForPoints` (App.tsx:201-206). -/
def statusForPoints (total : Int) : String :=
  if total ≥ 12 then "Termination"
  else if total ≥ 8 then "Final Written Warning"
  else if total ≥ 6 then "First Written Warning"
  else "OK"

/-- Source `digitsOnly` (App.tsx:142-144): delete every non-digit character. -/
def digitsOnly (s : String) : String :=
  String.mk (s.data.filter Char.isDigit)

/-- JS `String.prototype.trim`: drop leading and trailing whitespace. -/
def jsTrim (s : String) : String :=
  String.mk (((s.data.dropWhile Char.isWhitespace).reverse.dropWhile
    Char.isWhitespace).reverse)

/-- Source `isOlderThanDays` (App.tsx:146-153) at day granularity: `pd` is the date
parser (`none` = `NaN` timestamp), `today` the day number of the current local
midnight; the cutoff is `today - days` and the check is strict `<`. -/
def isOlderThanDays (pd : String → Option Int) (today : Int)
    (dateISO : String) (days : Int) : Bool :=
  match pd dateISO with
  | none => false
  | some d => decide (d < today - days)

/-- An infraction record; `type` is kept as its runtime string (the TS union
type is erased at runtime and invalid persisted strings flow through). -/
structure Infraction where
  id : String
  type : String
  points : Int
  date : String
  store : String
  reason : String
deriving DecidableEq, Repr

/-- An employee record. -/
structure Employee where
  id : String
  employeeId : String
  name : String
  infractions : List Infraction
deriving DecidableEq, Repr

/-- Source `addEmployee` (App.tsx:444-450); `fresh` is the id `newId()` produced. -/
def addEmployee (fresh : String) (name employeeIdRaw : String)
    (employees : List Employee) : List Employee :=
  let n := jsTrim name
  let eid := jsTrim (digitsOnly employeeIdRaw)
  if n = "" then employees
  else if eid = "" then employees
  else if employees.any (fun e => e.employeeId == eid) then employees
  else { id := fresh, employeeId := eid, name := n, infractions := [] } :: employees

/-- Source `updateEmployeeId` (App.tsx:458-467). -/
def updateEmployeeId (rowId raw : String) (employees : List Employee) :
    List Employee :=
  let eid := digitsOnly raw
  if eid = "" then
    employees.map (fun e => if e.id = rowId then { e with employeeId := "" } else e)
  else if employees.any (fun e => e.employeeId == eid && e.id != rowId) then
    employees
  else
    employees.map (fun e => if e.id = rowId then { e with employeeId := eid } else e)

/-- Source `addInfraction` (App.tsx:474-480): prepend `inf` with a fresh id onto the
matching employee's list. -/
def addInfraction (fresh : String) (empRowId : String) (inf : Infraction)
    (employees : List Employee) : List Employee :=
  employees.map (fun e =>
    if e.id = empRowId then
      { e with infractions := { inf with id := fresh } :: e.infractions }
    else e)

/-- The Add Infraction action of `EmployeePage` (App.tsx:1016-1029) composed
with `addInfraction`: the page computes `points := pointsForType t` and the
store overrides the id field, so the placeholder id is never kept. -/
def addInfractionFromPage (fresh : String) (empRowId : String)
    (t : InfractionType) (date store reason : String)
    (employees : List Employee) : List Employee :=
  addInfraction fresh empRowId
    { id := "", type := typeStr t, points := pointsForType t,
      date := date, store := store, reason := reason } employees

/-- JSON value trees, the decoded form `JSON.parse` yields.  Numbers are
modelled as integers (all numbers the program stores are small integers). -/
inductive Json where
  | null
  | bool (b : Bool)
  | num (n : Int)
  | str (s : String)
  | arr (elems : List Json)
  | obj (fields : List (String × Json))

/-- First binding for a key in a decoded object (parsed objects bind each key
once). -/
def lookupField : List (String × Json) → String → Option Json
  | [], _ => none
  | (k, v) :: rest, key => if k = key then some v else lookupField rest key

/-- Access in the `x?.k ?? d` style: `none` when `x` is not an object, the key is
absent, or the value is JSON null (both `undefined` and `null` select the
`??` fallback). -/
def getOr (j : Json) (key : String) : Option Json :=
  match j with
  | Json.obj fs =>
    match lookupField fs key with
    | some Json.null => none
    | some v => some v
    | none => none
  | _ => none

mutual

/-- JS `String(v)` coercion on a decoded JSON value. -/
def jsToString : Json → String
  | Json.null => "null"
  | Json.bool true => "true"
  | Json.bool false => "false"
  | Json.num n => toString n
  | Json.str s => s
  | Json.arr xs => jsToStringList xs
  | Json.obj _ => "[object Object]"

/-- JS array-to-string: elements joined by commas, null elements empty. -/
def jsToStringList : List Json → String
  | [] => ""
  | [Json.null] => ""
  | [x] => jsToString x
  | Json.null :: xs => "," ++ jsToStringList xs
  | x :: xs => jsToString x ++ "," ++ jsToStringList xs

end

/-- JS `Number(v)` coercion on a decoded JSON value, restricted to the
integer fragment; coercions that yield `NaN` in JS (non-numeric strings,
most arrays, objects) are modelled as 0 — no claim depends on those inputs. -/
def jsToNumber : Json → Int
  | Json.null => 0
  | Json.bool true => 1
  | Json.bool false => 0
  | Json.num n => n
  | Json.str s =>
    let t := jsTrim s
    if t = "" then 0
    else match t.toInt? with
      | some n => n
      | none => 0
  | Json.arr _ => 0
  | Json.obj _ => 0

/-- Source `AUTO_REMOVE_DAYS` (App.tsx:69). -/
def AUTO_REMOVE_DAYS : Int := 180

/-- The retention filter applied to decoded infractions at load time
(App.tsx:347). -/
def retentionFilter (pd : String → Option Int) (today : Int)
    (infs : List Infraction) : List Infraction :=
  infs.filter (fun inf => !(isOlderThanDays pd today inf.date AUTO_REMOVE_DAYS))

/-- Decode one stored infraction (App.tsx:335-345).  `fresh` is the
`newId()` supply and `ctr` the next unused index; the returned counter
advances when an id had to be generated. -/
def decodeInfraction (todayStr : String) (fresh : Nat → String) (ctr : Nat)
    (x : Json) : Infraction × Nat :=
  let ty := match getOr x "type" with
    | some v => jsToString v
    | none => "Tardy (16-59 min)"
  let date := match getOr x "date" with
    | some v => jsToString v
    | none => todayStr
  let idc : String × Nat := match getOr x "id" with
    | some v => (jsToString v, ctr)
    | none => (fresh ctr, ctr + 1)
  let pts := match getOr x "points" with
    | some v => jsToNumber v
    | none =>
      match pointsForTypeStr ty with
      | some p => p
      | none => 0
  ({ id := idc.1, type := ty, points := pts, date := date,
     store := match getOr x "store" with
       | some v => jsToString v
       | none => "",
     reason := match getOr x "reason" with
       | some v => jsToString v
       | none => "" }, idc.2)

/-- Decode a stored infraction array left to right, threading the id
counter. -/
def decodeInfractions (todayStr : String) (fresh : Nat → String) :
    Nat → List Json → List Infraction × Nat
  | ctr, [] => ([], ctr)
  | ctr, x :: xs =>
    let ic := decodeInfraction todayStr fresh ctr x
    let rest := decodeInfractions todayStr fresh ic.2 xs
    (ic.1 :: rest.1, rest.2)

/-- Decode one stored employee (App.tsx:332-356): infractions are decoded
then retention-filtered, and each scalar field is defaulted as in the
source. -/
def decodeEmployee (pd : String → Option Int) (today : Int)
    (todayStr : String) (fresh : Nat → String) (ctr : Nat) (e : Json) :
    Employee × Nat :=
  let infc : List Infraction × Nat := match getOr e "infractions" with
    | some (Json.arr xs) => decodeInfractions todayStr fresh ctr xs
    | _ => ([], ctr)
  let idc : String × Nat := match getOr e "id" with
    | some v => (jsToString v, infc.2)
    | none => (fresh infc.2, infc.2 + 1)
  ({ id := idc.1,
     employeeId := digitsOnly (match getOr e "employeeId" with
       | some v => jsToString v
       | none => ""),
     name := match getOr e "name" with
       | some v => jsToString v
       | none => "Employee",
     infractions := retentionFilter pd today infc.1 }, idc.2)

/-- Decode the stored employee array left to right. -/
def decodeEmployees (pd : String → Option Int) (today : Int)
    (todayStr : String) (fresh : Nat → String) :
    Nat → List Json → List Employee × Nat
  | ctr, [] => ([], ctr)
  | ctr, e :: es =>
    let ec := decodeEmployee pd today todayStr fresh ctr e
    let rest := decodeEmployees pd today todayStr fresh ec.2 es
    (ec.1 :: rest.1, rest.2)

/-- Source `loadEmployees` (App.tsx:325-360) from the parsed JSON value; `none`
covers a missing storage key and a `JSON.parse` failure (the `catch`
branch), and a non-array value also yields the empty collection. -/
def loadEmployees (pd : String → Option Int) (today : Int)
    (todayStr : String) (fresh : Nat → String) : Option Json → List Employee
  | none => []
  | some (Json.arr es) => (decodeEmployees pd today todayStr fresh 0 es).1
  | some _ => []

/-- Source `loadEmployees` from the raw storage slot: `none` is a missing key,
`parseJson` is the `JSON.parse` result (`none` when it throws), and the
empty string is falsy so it short-circuits to the empty collection. -/
def loadEmployeesRaw (parseJson : String → Option Json)
    (pd : String → Option Int) (today : Int) (todayStr : String)
    (fresh : Nat → String) : Option String → List Employee
  | none => []
  | some s => if s = "" then [] else loadEmployees pd today todayStr fresh (parseJson s)

/-- Encoding of one infraction as `JSON.stringify` lays it out. -/
def encodeInfraction (i : Infraction) : Json :=
  Json.obj [("id", Json.str i.id), ("type", Json.str i.type),
    ("points", Json.num i.points), ("date", Json.str i.date),
    ("store", Json.str i.store), ("reason", Json.str i.reason)]

/-- Encoding of one employee as `JSON.stringify` lays it out. -/
def encodeEmployee (e : Employee) : Json :=
  Json.obj [("id", Json.str e.id), ("employeeId", Json.str e.employeeId),
    ("name", Json.str e.name),
    ("infractions", Json.arr (e.infractions.map encodeInfraction))]

/-- Source `saveEmployees` (App.tsx:362-364) at the JSON value level: the value
tree `JSON.stringify` serializes (and `JSON.parse` recovers). -/
def saveEmployees (data : List Employee) : Json :=
  Json.arr (data.map encodeEmployee)

/-- Source `normalizeEmployees` (App.tsx:385-396), with the `seen` set as the list
of external ids added so far. -/
def normalizeGo : List String → List Employee → List Employee
  | _, [] => []
  | seen, e :: rest =>
    let eid := digitsOnly e.employeeId
    if eid = "" then normalizeGo seen rest
    else if eid ∈ seen then normalizeGo seen rest
    else { e with employeeId := eid } :: normalizeGo (eid :: seen) rest

/-- Source `normalizeEmployees` (App.tsx:385-396). -/
def normalizeEmployees (data : List Employee) : List Employee :=
  normalizeGo [] data

/-- Spec-side statement of the normalization pass, written from the spec's
words: keep the first occurrence of each (digit-stripped, nonempty) external
id in sequence order, replace the kept record's external id by its
digits-only form, and discard records whose stripped id is empty or already
taken by an earlier record. -/
def keepFirstByEid : List Employee → List Employee
  | [] => []
  | e :: rest =>
    let eid := digitsOnly e.employeeId
    if eid = "" then keepFirstByEid rest
    else { e with employeeId := eid } ::
      keepFirstByEid (rest.filter (fun x => decide (digitsOnly x.employeeId ≠ eid)))
termination_by l => l.length
decreasing_by
  all_goals simp only [List.length_cons]
  · omega
  · exact Nat.lt_succ_of_le (List.length_filter_le _ _)

/-- The per-employee step of the retention sweep (App.tsx:433-436): filter
the infractions, report whether anything was dropped, keep the original
record when nothing was. -/
def sweepEmployee (pd : String → Option Int) (today : Int) (days : Int)
    (e : Employee) : Employee × Bool :=
  let kept := e.infractions.filter
    (fun inf => !(isOlderThanDays pd today inf.date days))
  if kept.length = e.infractions.length then (e, false)
  else ({ e with infractions := kept }, true)

/-- The retention sweep over the collection (App.tsx:430-440): the day count
is a parameter (`AUTO_REMOVE_DAYS` at the call site); returns the new
collection (the untouched original when nothing changed) and whether any
change occurred. -/
def sweepExpired (pd : String → Option Int) (today : Int) (days : Int)
    (emps : List Employee) : List Employee × Bool :=
  let results := emps.map (sweepEmployee pd today days)
  let changed := results.any (·.2)
  (if changed then results.map (·.1) else emps, changed)

end Attendance

namespace Attendance

/-- Helper: mapping a function that fixes every member leaves a list
unchanged. -/
theorem map_eq_self_of {α : Type} (l : List α) (f : α → α)
    (h : ∀ a ∈ l, f a = a) : l.map f = l := by
  induction l with
  | nil => rfl
  | cons a l ih =>
    simp only [List.map_cons, h a (List.mem_cons_self a l),
      ih (fun b hb => h b (List.mem_cons_of_mem a hb))]

/-- C1: For every integer total `t`, the status classifier returns
Termination if `t ≥ 12`, Final Written Warning if `8 ≤ t < 12`, First Written
Warning if `6 ≤ t < 8`, and OK if `t < 6`. -/
theorem statusForPoints_spec (t : Int) :
    (12 ≤ t → statusForPoints t = "Termination") ∧
    (8 ≤ t → t < 12 → statusForPoints t = "Final Written Warning") ∧
    (6 ≤ t → t < 8 → statusForPoints t = "First Written Warning") ∧
    (t < 6 → statusForPoints t = "OK") := by
  unfold statusForPoints
  refine ⟨fun h => ?_, fun h h12 => ?_, fun h h8 => ?_, fun h => ?_⟩ <;>
    simp only [ge_iff_le] <;>
    repeat first
      | rw [if_pos (by omega)]
      | rw [if_neg (by omega)]

/-- Witness for C1: each boundary input t = 5, 6, 7, 8, 11, 12 lands on the
documented branch. -/
theorem statusForPoints_spec_witness :
    statusForPoints 5 = "OK" ∧
    statusForPoints 6 = "First Written Warning" ∧
    statusForPoints 7 = "First Written Warning" ∧
    statusForPoints 8 = "Final Written Warning" ∧
    statusForPoints 11 = "Final Written Warning" ∧
    statusForPoints 12 = "Termination" :=
  ⟨(statusForPoints_spec 5).2.2.2 (by norm_num),
   (statusForPoints_spec 6).2.2.1 (by norm_num) (by norm_num),
   (statusForPoints_spec 7).2.2.1 (by norm_num) (by norm_num),
   (statusForPoints_spec 8).2.1 (by norm_num) (by norm_num),
   (statusForPoints_spec 11).2.1 (by norm_num) (by norm_num),
   (statusForPoints_spec 12).1 (by norm_num)⟩

/-- C2: the policy table lookup is total over the closed set of nine
categories (it is a total Lean function on `InfractionType`) and returns
exactly the fixed table value for each category. -/
theorem pointsForType_spec :
    pointsForType .callOutPriorToShift = 3 ∧
    pointsForType .callOutAfterShiftStarts = 8 ∧
    pointsForType .noCallNoShow = 8 ∧
    pointsForType .tardy16to59 = 1 ∧
    pointsForType .tardy60plus = 2 ∧
    pointsForType .earlyDeparture16to59 = 1 ∧
    pointsForType .earlyDeparture60plus = 2 ∧
    pointsForType .lateReturn16to59 = 1 ∧
    pointsForType .lateReturn60plus = 2 := by
  refine ⟨rfl, rfl, rfl, rfl, rfl, rfl, rfl, rfl, rfl⟩

/-- C3: `addEmployee` is a no-op (collection exactly unchanged) when the
trimmed name is empty, the digits-only external id is empty, or the external
id collides with an existing record; otherwise it prepends a record with the
fresh internal id, trimmed name, digits-only external id and empty infraction
list, keeping all existing records unchanged. -/
theorem addEmployee_spec (fresh name raw : String) (emps : List Employee) :
    ((jsTrim name = "" ∨ jsTrim (digitsOnly raw) = "" ∨
        (∃ e ∈ emps, e.employeeId = jsTrim (digitsOnly raw))) →
      addEmployee fresh name raw emps = emps) ∧
    (jsTrim name ≠ "" → jsTrim (digitsOnly raw) ≠ "" →
      (∀ e ∈ emps, e.employeeId ≠ jsTrim (digitsOnly raw)) →
      addEmployee fresh name raw emps =
        { id := fresh, employeeId := jsTrim (digitsOnly raw),
          name := jsTrim name, infractions := [] } :: emps) := by
  constructor
  · rintro (h | h | ⟨e, he, heq⟩)
    · simp only [addEmployee]
      rw [if_pos h]
    · simp only [addEmployee]
      by_cases hn : jsTrim name = ""
      · rw [if_pos hn]
      · rw [if_neg hn, if_pos h]
    · simp only [addEmployee]
      by_cases hn : jsTrim name = ""
      · rw [if_pos hn]
      · rw [if_neg hn]
        by_cases hd : jsTrim (digitsOnly raw) = ""
        · rw [if_pos hd]
        · rw [if_neg hd]
          have hany : (emps.any fun e =>
              e.employeeId == jsTrim (digitsOnly raw)) = true :=
            List.any_eq_true.mpr ⟨e, he, beq_iff_eq.mpr heq⟩
          rw [if_pos hany]
  · intro hn hd hall
    simp only [addEmployee]
    have hany : ¬ ((emps.any fun e =>
        e.employeeId == jsTrim (digitsOnly raw)) = true) := by
      simp only [List.any_eq_true, beq_iff_eq, not_exists, not_and]
      exact hall
    rw [if_neg hn, if_neg hd, if_neg hany]

/-- Witness for C3: adding a duplicate external id leaves the collection
unchanged, and a valid add prepends the trimmed/stripped record. -/
theorem addEmployee_spec_witness :
    addEmployee "r2" "Bob" "4471"
        [{ id := "r1", employeeId := "4471", name := "Jane", infractions := [] }] =
      [{ id := "r1", employeeId := "4471", name := "Jane", infractions := [] }] ∧
    addEmployee "r1" " Jane Doe " "44-71" [] =
      [{ id := "r1", employeeId := "4471", name := "Jane Doe",
         infractions := [] }] :=
  ⟨(addEmployee_spec "r2" "Bob" "4471" _).1 (Or.inr (Or.inr
      ⟨{ id := "r1", employeeId := "4471", name := "Jane", infractions := [] },
       List.mem_singleton.mpr rfl, by decide⟩)),
   (addEmployee_spec "r1" " Jane Doe " "44-71" []).2 (by decide) (by decide)
     (by intro e he; cases he)⟩

/-- C7: `updateEmployeeId` strips non-digits from the raw input; empty result
clears the target's external id; a collision with a different employee's
external id is rejected with the whole state unchanged; otherwise exactly the
target's external id is set and every other record is untouched. -/
theorem updateEmployeeId_spec (rowId raw : String) (emps : List Employee) :
    (digitsOnly raw = "" →
      updateEmployeeId rowId raw emps =
        emps.map (fun e => if e.id = rowId then { e with employeeId := "" } else e)) ∧
    (digitsOnly raw ≠ "" →
      ((∃ e ∈ emps, e.employeeId = digitsOnly raw ∧ e.id ≠ rowId) →
        updateEmployeeId rowId raw emps = emps) ∧
      ((∀ e ∈ emps, e.employeeId = digitsOnly raw → e.id = rowId) →
        updateEmployeeId rowId raw emps =
          emps.map (fun e =>
            if e.id = rowId then { e with employeeId := digitsOnly raw } else e))) := by
  constructor
  · intro h
    simp only [updateEmployeeId]
    rw [if_pos h]
  · intro h
    constructor
    · rintro ⟨e, he, heq, hne⟩
      simp only [updateEmployeeId]
      have hany : (emps.any fun e =>
          e.employeeId == digitsOnly raw && e.id != rowId) = true :=
        List.any_eq_true.mpr ⟨e, he, by
          simp only [Bool.and_eq_true, beq_iff_eq, bne_iff_ne]
          exact ⟨heq, hne⟩⟩
      rw [if_neg h, if_pos hany]
    · intro hall
      simp only [updateEmployeeId]
      have hany : ¬ ((emps.any fun e =>
          e.employeeId == digitsOnly raw && e.id != rowId) = true) := by
        simp only [List.any_eq_true, Bool.and_eq_true, beq_iff_eq, bne_iff_ne,
          not_exists, not_and]
        intro e he heq
        exact fun hne => hne (hall e he heq)
      rw [if_neg h, if_neg hany]

/-- Witness for C7: a collision with a different employee's external id is
rejected with the state unchanged. -/
theorem updateEmployeeId_spec_witness :
    updateEmployeeId "r1" "2x"
        [{ id := "r1", employeeId := "1", name := "A", infractions := [] },
         { id := "r2", employeeId := "2", name := "B", infractions := [] }] =
      [{ id := "r1", employeeId := "1", name := "A", infractions := [] },
       { id := "r2", employeeId := "2", name := "B", infractions := [] }] :=
  ((updateEmployeeId_spec "r1" "2x" _).2 (by decide)).1 (by decide)

/-- C8: adding an infraction from the employee page stores the policy-table
point value for the chosen category and a freshly generated id, prepends it
to the target employee's list, and leaves the collection unchanged when no
record has the given row id. -/
theorem addInfraction_spec (fresh empRowId : String) (t : InfractionType)
    (date store reason : String) (emps : List Employee) :
    (addInfractionFromPage fresh empRowId t date store reason emps =
      emps.map (fun e =>
        if e.id = empRowId then
          { e with infractions :=
              { id := fresh, type := typeStr t, points := pointsForType t,
                date := date, store := store, reason := reason } :: e.infractions }
        else e)) ∧
    ((∀ e ∈ emps, e.id ≠ empRowId) →
      addInfractionFromPage fresh empRowId t date store reason emps = emps) := by
  constructor
  · rfl
  · intro hall
    show emps.map _ = emps
    exact map_eq_self_of emps _ (fun e he => if_neg (hall e he))

/-- Witness for C8: adding to an unresolved row id is a no-op, at a concrete
collection. -/
theorem addInfraction_spec_witness :
    addInfractionFromPage "i1" "missing" .noCallNoShow "2025-01-01" "s7" ""
        [{ id := "r1", employeeId := "4471", name := "Jane", infractions := [] }] =
      [{ id := "r1", employeeId := "4471", name := "Jane", infractions := [] }] :=
  (addInfraction_spec "i1" "missing" .noCallNoShow "2025-01-01" "s7" "" _).2
    (by decide)

/-- Helper: mapping a function fixes a list exactly when it fixes every
member. -/
theorem map_eq_self_iff {α : Type} (l : List α) (f : α → α) :
    l.map f = l ↔ ∀ a ∈ l, f a = a := by
  induction l with
  | nil => simp
  | cons b l ih =>
    simp only [List.map_cons, List.cons.injEq, List.mem_cons, forall_eq_or_imp]
    exact and_congr Iff.rfl ih

/-- Helper: the sweep's per-employee result is the retention filter applied
to its infractions. -/
theorem sweepEmployee_fst (pd : String → Option Int) (today days : Int)
    (e : Employee) :
    (sweepEmployee pd today days e).1 =
      { e with infractions := (e.infractions.filter
        (fun inf => !(isOlderThanDays pd today inf.date days))) } := by
  by_cases h : (e.infractions.filter
      (fun inf => !(isOlderThanDays pd today inf.date days))).length =
      e.infractions.length
  · have hf := List.filter_eq_self.mpr (List.filter_length_eq_length.mp h)
    simp only [sweepEmployee]
    rw [if_pos h, hf]
  · simp only [sweepEmployee]
    rw [if_neg h]

/-- Helper: the per-employee changed flag is false exactly when the record is
returned unchanged. -/
theorem sweepEmployee_snd_false_iff (pd : String → Option Int)
    (today days : Int) (e : Employee) :
    (sweepEmployee pd today days e).2 = false ↔
      (sweepEmployee pd today days e).1 = e := by
  by_cases h : (e.infractions.filter
      (fun inf => !(isOlderThanDays pd today inf.date days))).length =
      e.infractions.length
  · simp only [sweepEmployee]
    rw [if_pos h]
    simp
  · simp only [sweepEmployee]
    rw [if_neg h]
    constructor
    · intro h2
      exact absurd h2 (by simp)
    · intro h2
      exfalso
      apply h
      have h3 := congrArg Employee.infractions h2
      simp only at h3
      rw [h3]


/-- Helper: the sweep's collection result, with the original kept when
nothing changed, equals the mapped retention filter. -/
theorem sweepExpired_fst (pd : String → Option Int) (today days : Int)
    (emps : List Employee) :
    (sweepExpired pd today days emps).1 =
      emps.map (fun e => { e with infractions := (e.infractions.filter
        (fun inf => !(isOlderThanDays pd today inf.date days))) }) := by
  simp only [sweepExpired]
  by_cases h : ((emps.map (sweepEmployee pd today days)).any (·.2)) = true
  · rw [if_pos h, List.map_map]
    apply List.map_congr_left
    intro e _
    exact sweepEmployee_fst pd today days e
  · rw [if_neg h]
    symm
    rw [map_eq_self_iff]
    intro e he
    have hsnd : (sweepEmployee pd today days e).2 = false := by
      simp only [List.any_eq_true, not_exists, not_and, Bool.not_eq_true,
        List.mem_map] at h
      exact h _ ⟨e, he, rfl⟩
    have h1 := (sweepEmployee_snd_false_iff pd today days e).mp hsnd
    rw [← sweepEmployee_fst pd today days e]
    exact h1

/-- Helper: the sweep's changed flag is true exactly when the returned
collection differs from the input. -/
theorem sweepExpired_snd_iff (pd : String → Option Int) (today days : Int)
    (emps : List Employee) :
    (sweepExpired pd today days emps).2 = true ↔
      (sweepExpired pd today days emps).1 ≠ emps := by
  rw [sweepExpired_fst, Ne, map_eq_self_iff]
  show (sweepExpired pd today days emps).2 = true ↔ _
  simp only [sweepExpired, List.any_eq_true, List.mem_map, not_forall]
  constructor
  · rintro ⟨x, ⟨e, he, rfl⟩, hx2⟩
    refine ⟨e, he, ?_⟩
    intro heq
    have h1 : (sweepEmployee pd today days e).1 = e := by
      rw [sweepEmployee_fst]
      exact heq
    have h2 := (sweepEmployee_snd_false_iff pd today days e).mpr h1
    rw [h2] at hx2
    cases hx2
  · rintro ⟨e, he, hne⟩
    refine ⟨sweepEmployee pd today days e, ⟨e, he, rfl⟩, ?_⟩
    by_contra hx
    have hsnd : (sweepEmployee pd today days e).2 = false := by
      cases h : (sweepEmployee pd today days e).2
      · rfl
      · exact absurd h hx
    have h1 := (sweepEmployee_snd_false_iff pd today days e).mp hsnd
    apply hne
    rw [← sweepEmployee_fst pd today days e]
    exact h1

/-- C5: the retention sweep removes, for every employee, exactly the
infractions whose effective date is strictly before today minus
`retentionDays` at day granularity; an infraction dated today (for a
nonnegative window) or exactly `retentionDays` ago is retained, one dated
`retentionDays + 1` days ago is removed, and the returned flag reports
whether any change occurred. -/
theorem sweepExpired_spec (pd : String → Option Int) (today days : Int)
    (emps : List Employee) :
    ((sweepExpired pd today days emps).1 =
      emps.map (fun e => { e with infractions := (e.infractions.filter
        (fun inf => !(isOlderThanDays pd today inf.date days))) })) ∧
    (∀ dateISO d, pd dateISO = some d →
      (isOlderThanDays pd today dateISO days = true ↔ d < today - days)) ∧
    (∀ dateISO, pd dateISO = some (today - days) →
      isOlderThanDays pd today dateISO days = false) ∧
    (∀ dateISO, 0 ≤ days → pd dateISO = some today →
      isOlderThanDays pd today dateISO days = false) ∧
    (∀ dateISO, pd dateISO = some (today - days - 1) →
      isOlderThanDays pd today dateISO days = true) ∧
    ((sweepExpired pd today days emps).2 = true ↔
      (sweepExpired pd today days emps).1 ≠ emps) := by
  refine ⟨sweepExpired_fst pd today days emps, ?_, ?_, ?_, ?_,
    sweepExpired_snd_iff pd today days emps⟩
  · intro dateISO d h
    simp only [isOlderThanDays, h, decide_eq_true_eq]
  · intro dateISO h
    simp only [isOlderThanDays, h, decide_eq_false_iff_not]
    omega
  · intro dateISO hd h
    simp only [isOlderThanDays, h, decide_eq_false_iff_not]
    omega
  · intro dateISO h
    simp only [isOlderThanDays, h, decide_eq_true_eq]
    omega

/-- Witness for C5: with a 180-day window, infractions dated today and
exactly 180 days ago survive the sweep, one dated 181 days ago is removed,
and the flag reports the change. -/
theorem sweepExpired_spec_witness :
    isOlderThanDays
        (fun s => if s = "d0" then some 1000
          else if s = "d180" then some 820
          else if s = "d181" then some 819 else none)
        1000 "d180" 180 = false ∧
    isOlderThanDays
        (fun s => if s = "d0" then some 1000
          else if s = "d180" then some 820
          else if s = "d181" then some 819 else none)
        1000 "d0" 180 = false ∧
    isOlderThanDays
        (fun s => if s = "d0" then some 1000
          else if s = "d180" then some 820
          else if s = "d181" then some 819 else none)
        1000 "d181" 180 = true ∧
    (sweepExpired
        (fun s => if s = "d0" then some 1000
          else if s = "d180" then some 820
          else if s = "d181" then some 819 else none)
        1000 180
        [{ id := "r1", employeeId := "1", name := "A", infractions :=
          [{ id := "i0", type := "No Call / No Show", points := 8,
             date := "d0", store := "", reason := "" },
           { id := "i1", type := "Tardy (16-59 min)", points := 1,
             date := "d180", store := "", reason := "" },
           { id := "i2", type := "Tardy (60+ min)", points := 2,
             date := "d181", store := "", reason := "" }] }]).1 =
      [{ id := "r1", employeeId := "1", name := "A", infractions :=
        [{ id := "i0", type := "No Call / No Show", points := 8,
           date := "d0", store := "", reason := "" },
         { id := "i1", type := "Tardy (16-59 min)", points := 1,
           date := "d180", store := "", reason := "" }] }] :=
  ⟨(sweepExpired_spec _ 1000 180 []).2.2.1 "d180" rfl,
   (sweepExpired_spec _ 1000 180 []).2.2.2.1 "d0" (by norm_num) rfl,
   (sweepExpired_spec _ 1000 180 []).2.2.2.2.1 "d181" rfl,
   ((sweepExpired_spec _ 1000 180 _).1).trans (by decide)⟩

/-- Helper: the accumulator form of the normalization pass agrees with the
spec-side first-occurrence dedup on the not-yet-seen records. -/
theorem normalizeGo_eq (l : List Employee) : ∀ seen : List String,
    normalizeGo seen l =
      keepFirstByEid (l.filter (fun x => decide (digitsOnly x.employeeId ∉ seen))) := by
  induction l with
  | nil =>
    intro seen
    simp [normalizeGo, keepFirstByEid]
  | cons e rest ih =>
    intro seen
    simp only [normalizeGo]
    by_cases h0 : digitsOnly e.employeeId = ""
    · rw [if_pos h0]
      by_cases hm : digitsOnly e.employeeId ∈ seen
      · rw [List.filter_cons_of_neg (by simp [hm])]
        exact ih seen
      · rw [List.filter_cons_of_pos (by simp [hm])]
        rw [ih seen]
        conv_rhs => rw [keepFirstByEid]
        rw [if_pos h0]
    · rw [if_neg h0]
      by_cases hm : digitsOnly e.employeeId ∈ seen
      · rw [if_pos hm, List.filter_cons_of_neg (by simp [hm])]
        exact ih seen
      · rw [if_neg hm, List.filter_cons_of_pos (by simp [hm])]
        conv_rhs => rw [keepFirstByEid]
        rw [if_neg h0]
        congr 1
        rw [ih (digitsOnly e.employeeId :: seen)]
        congr 1
        rw [List.filter_filter]
        apply List.filter_congr
        intro x _
        by_cases h1 : digitsOnly x.employeeId = digitsOnly e.employeeId <;>
          by_cases h2 : digitsOnly x.employeeId ∈ seen <;>
            simp [h1, h2, List.mem_cons]

/-- C9: the normalization pass equals the spec-side dedup: it keeps the
first occurrence of each nonempty digit-stripped external id in sequence
order, discards records whose stripped id is empty or already seen, and
rewrites each kept record's external id to its digits-only form. -/
theorem normalizeEmployees_spec (data : List Employee) :
    normalizeEmployees data = keepFirstByEid data := by
  show normalizeGo [] data = keepFirstByEid data
  rw [normalizeGo_eq data []]
  congr 1
  apply List.filter_eq_self.mpr
  intro a _
  simp

/-- C10: an infraction whose date string does not parse is never considered
older than any day count, so it survives both the load-time retention filter
and the periodic sweep. -/
theorem invalidDate_never_removed (pd : String → Option Int)
    (today days : Int) (dateISO : String) (h : pd dateISO = none) :
    isOlderThanDays pd today dateISO days = false ∧
    (∀ infs : List Infraction, ∀ i ∈ infs, i.date = dateISO →
      i ∈ retentionFilter pd today infs) ∧
    (∀ e : Employee, ∀ i ∈ e.infractions, i.date = dateISO →
      i ∈ ((sweepEmployee pd today days e).1).infractions) := by
  have hfalse : ∀ days2 : Int, isOlderThanDays pd today dateISO days2 = false := by
    intro days2
    simp [isOlderThanDays, h]
  refine ⟨hfalse days, ?_, ?_⟩
  · intro infs i hi hdate
    refine List.mem_filter.mpr ⟨hi, ?_⟩
    rw [hdate]
    simp [hfalse]
  · intro e i hi hdate
    rw [sweepEmployee_fst]
    refine List.mem_filter.mpr ⟨hi, ?_⟩
    rw [hdate]
    simp [hfalse]

/-- Witness for C10: a garbage date string survives a ten-year sweep window
in a concrete employee record. -/
theorem invalidDate_never_removed_witness :
    isOlderThanDays (fun _ => none) 1000 "not-a-date" 3650 = false ∧
    { id := "i1", type := "No Call / No Show", points := (8 : Int),
      date := "not-a-date", store := "", reason := "" } ∈
      ((sweepEmployee (fun _ => none) 1000 3650
        { id := "r1", employeeId := "1", name := "A", infractions :=
          [{ id := "i1", type := "No Call / No Show", points := 8,
             date := "not-a-date", store := "", reason := "" }] }).1).infractions :=
  ⟨(invalidDate_never_removed (fun _ => none) 1000 3650 "not-a-date" rfl).1,
   (invalidDate_never_removed (fun _ => none) 1000 3650 "not-a-date" rfl).2.2
     _ _ (List.mem_singleton.mpr rfl) rfl⟩


/-- Helper: decoding an encoded infraction recovers it exactly, without
consuming a fresh id. -/
theorem decodeInfraction_encode (todayStr : String) (fresh : Nat → String)
    (ctr : Nat) (i : Infraction) :
    decodeInfraction todayStr fresh ctr (encodeInfraction i) = (i, ctr) := rfl

/-- Helper: decoding an encoded infraction list recovers it exactly. -/
theorem decodeInfractions_encode (todayStr : String) (fresh : Nat → String)
    (l : List Infraction) : ∀ ctr : Nat,
    decodeInfractions todayStr fresh ctr (l.map encodeInfraction) = (l, ctr) := by
  induction l with
  | nil => intro ctr; rfl
  | cons i rest ih =>
    intro ctr
    simp only [List.map_cons, decodeInfractions, decodeInfraction_encode, ih]

/-- Helper: decoding an encoded employee whose external id is digits-only
and whose infractions are all within the retention window recovers it
exactly. -/
theorem decodeEmployee_encode (pd : String → Option Int) (today : Int)
    (todayStr : String) (fresh : Nat → String) (ctr : Nat) (e : Employee)
    (hid : digitsOnly e.employeeId = e.employeeId)
    (hdates : ∀ i ∈ e.infractions,
      isOlderThanDays pd today i.date AUTO_REMOVE_DAYS = false) :
    decodeEmployee pd today todayStr fresh ctr (encodeEmployee e) = (e, ctr) := by
  have key : decodeEmployee pd today todayStr fresh ctr (encodeEmployee e) =
      ({ id := e.id, employeeId := digitsOnly e.employeeId, name := e.name,
         infractions := retentionFilter pd today
           (decodeInfractions todayStr fresh ctr
             (e.infractions.map encodeInfraction)).1 },
       (decodeInfractions todayStr fresh ctr
         (e.infractions.map encodeInfraction)).2) := rfl
  have hfilter : retentionFilter pd today e.infractions = e.infractions :=
    List.filter_eq_self.mpr (fun i hi => by simp [hdates i hi])
  rw [key, decodeInfractions_encode todayStr fresh e.infractions ctr]
  simp [hid, hfilter]

/-- Helper: decoding an encoded collection recovers it exactly under the
same per-record conditions. -/
theorem decodeEmployees_encode (pd : String → Option Int) (today : Int)
    (todayStr : String) (fresh : Nat → String) (X : List Employee)
    (hid : ∀ e ∈ X, digitsOnly e.employeeId = e.employeeId)
    (hdates : ∀ e ∈ X, ∀ i ∈ e.infractions,
      isOlderThanDays pd today i.date AUTO_REMOVE_DAYS = false) :
    ∀ ctr : Nat,
    decodeEmployees pd today todayStr fresh ctr (X.map encodeEmployee) = (X, ctr) := by
  induction X with
  | nil => intro ctr; rfl
  | cons e rest ih =>
    intro ctr
    simp only [List.map_cons, decodeEmployees]
    rw [decodeEmployee_encode pd today todayStr fresh ctr e
        (hid e (List.mem_cons_self e rest))
        (hdates e (List.mem_cons_self e rest)),
      ih (fun b hb => hid b (List.mem_cons_of_mem e hb))
        (fun b hb => hdates b (List.mem_cons_of_mem e hb)) ctr]

/-- C4 counterexample: a well-formed collection holding one infraction
dated more than 180 days before today (day 1000 here, the infraction on day
0) does not survive a save/load round trip: the load-time retention filter
drops the infraction. -/
theorem load_save_roundtrip_counterexample :
    loadEmployees
        (fun s => if s = "2022-01-01" then some 0
          else if s = "2025-06-01" then some 1000 else none)
        1000 "2025-06-01" (fun _ => "f")
        (some (saveEmployees
          [{ id := "r1", employeeId := "4471", name := "Jane", infractions :=
            [{ id := "i1", type := "No Call / No Show", points := 8,
               date := "2022-01-01", store := "7", reason := "" }] }])) =
      [{ id := "r1", employeeId := "4471", name := "Jane", infractions := [] }] ∧
    loadEmployees
        (fun s => if s = "2022-01-01" then some 0
          else if s = "2025-06-01" then some 1000 else none)
        1000 "2025-06-01" (fun _ => "f")
        (some (saveEmployees
          [{ id := "r1", employeeId := "4471", name := "Jane", infractions :=
            [{ id := "i1", type := "No Call / No Show", points := 8,
               date := "2022-01-01", store := "7", reason := "" }] }])) ≠
      [{ id := "r1", employeeId := "4471", name := "Jane", infractions :=
        [{ id := "i1", type := "No Call / No Show", points := 8,
           date := "2022-01-01", store := "7", reason := "" }] }] := by
  constructor
  · decide
  · decide

/-- C4 (amended): a save/load round trip returns the collection unchanged
for every well-formed collection whose external ids are digits-only and
whose infractions are all within the 180-day retention window; no id is
regenerated because every record carries one. -/
theorem load_save_roundtrip (pd : String → Option Int) (today : Int)
    (todayStr : String) (fresh : Nat → String) (X : List Employee)
    (hid : ∀ e ∈ X, digitsOnly e.employeeId = e.employeeId)
    (hdates : ∀ e ∈ X, ∀ i ∈ e.infractions,
      isOlderThanDays pd today i.date AUTO_REMOVE_DAYS = false) :
    loadEmployees pd today todayStr fresh (some (saveEmployees X)) = X := by
  simp only [loadEmployees, saveEmployees]
  rw [decodeEmployees_encode pd today todayStr fresh X hid hdates 0]

/-- Witness for C4 (amended): a concrete in-window collection round-trips
unchanged. -/
theorem load_save_roundtrip_witness :
    loadEmployees (fun s => if s = "2025-06-01" then some 1000 else none)
        1000 "2025-06-01" (fun _ => "f")
        (some (saveEmployees
          [{ id := "r1", employeeId := "4471", name := "Jane", infractions :=
            [{ id := "i1", type := "No Call / No Show", points := 8,
               date := "2025-06-01", store := "7", reason := "note" }] }])) =
      [{ id := "r1", employeeId := "4471", name := "Jane", infractions :=
        [{ id := "i1", type := "No Call / No Show", points := 8,
           date := "2025-06-01", store := "7", reason := "note" }] }] :=
  load_save_roundtrip (fun s => if s = "2025-06-01" then some 1000 else none)
    1000 "2025-06-01" (fun _ => "f") _ (by decide) (by decide)


/-- Helper: decoding an employee array yields one record per element. -/
theorem decodeEmployees_length (pd : String → Option Int) (today : Int)
    (todayStr : String) (fresh : Nat → String) (es : List Json) :
    ∀ ctr : Nat,
    ((decodeEmployees pd today todayStr fresh ctr es).1).length = es.length := by
  induction es with
  | nil => intro ctr; rfl
  | cons e rest ih =>
    intro ctr
    simp only [decodeEmployees, List.length_cons]
    rw [ih]

/-- C6 counterexample: the display-name field does not fall back to the
empty string: an employee element decoded from the empty object receives
the name "Employee". -/
theorem loadEmployees_defensive_counterexample :
    (loadEmployees (fun _ => none) 0 "2025-01-01" (fun _ => "f")
        (some (Json.arr [Json.obj []]))).map Employee.name = ["Employee"] ∧
    "Employee" ≠ "" := by
  constructor
  · rfl
  · decide

/-- C6 (amended): the load is total and never raises: a missing key, a
`JSON.parse` failure, or a non-array value each yields the empty
collection; every array element decodes to a record (one output record per
element), with per-field defaulting: a missing internal id draws a freshly
generated one, a missing category falls back to "Tardy (16-59 min)", a
missing point value is recomputed from the policy table for the record's
category, a missing date becomes today's date, and the external id, store
and reason fields fall back to the empty string — while a missing display
name falls back to "Employee", not to the empty string. -/
theorem loadEmployees_defensive_spec (parseJson : String → Option Json)
    (pd : String → Option Int) (today : Int) (todayStr : String)
    (fresh : Nat → String) :
    (loadEmployeesRaw parseJson pd today todayStr fresh none = []) ∧
    (∀ s, parseJson s = none →
      loadEmployeesRaw parseJson pd today todayStr fresh (some s) = []) ∧
    (∀ j, (∀ es, j ≠ Json.arr es) →
      loadEmployees pd today todayStr fresh (some j) = []) ∧
    (∀ es, (loadEmployees pd today todayStr fresh (some (Json.arr es))).length =
      es.length) ∧
    (∀ ctr x,
      (getOr x "id" = none →
        ∃ n, ((decodeEmployee pd today todayStr fresh ctr x).1).id = fresh n) ∧
      (getOr x "employeeId" = none →
        ((decodeEmployee pd today todayStr fresh ctr x).1).employeeId = "") ∧
      (getOr x "name" = none →
        ((decodeEmployee pd today todayStr fresh ctr x).1).name = "Employee")) ∧
    (∀ ctr y,
      (getOr y "type" = none →
        ((decodeInfraction todayStr fresh ctr y).1).type = "Tardy (16-59 min)") ∧
      (getOr y "id" = none →
        ((decodeInfraction todayStr fresh ctr y).1).id = fresh ctr) ∧
      (∀ p : Int, getOr y "points" = none →
        pointsForTypeStr ((decodeInfraction todayStr fresh ctr y).1).type = some p →
        ((decodeInfraction todayStr fresh ctr y).1).points = p) ∧
      (getOr y "date" = none →
        ((decodeInfraction todayStr fresh ctr y).1).date = todayStr) ∧
      (getOr y "store" = none →
        ((decodeInfraction todayStr fresh ctr y).1).store = "") ∧
      (getOr y "reason" = none →
        ((decodeInfraction todayStr fresh ctr y).1).reason = "")) := by
  refine ⟨rfl, ?_, ?_, ?_, ?_, ?_⟩
  · intro s hp
    by_cases h0 : s = ""
    · simp [loadEmployeesRaw, h0]
    · simp [loadEmployeesRaw, h0, hp, loadEmployees]
  · intro j h
    cases j with
    | arr es => exact absurd rfl (h es)
    | null => rfl
    | bool b => rfl
    | num n => rfl
    | str s => rfl
    | obj fs => rfl
  · intro es
    simp only [loadEmployees]
    exact decodeEmployees_length pd today todayStr fresh es 0
  · intro ctr x
    refine ⟨?_, ?_, ?_⟩
    · intro h
      simp only [decodeEmployee, h]
      exact ⟨_, rfl⟩
    · intro h
      simp [decodeEmployee, h, digitsOnly]
    · intro h
      simp [decodeEmployee, h]
  · intro ctr y
    refine ⟨?_, ?_, ?_, ?_, ?_, ?_⟩
    · intro h
      simp [decodeInfraction, h]
    · intro h
      simp [decodeInfraction, h]
    · intro p h hp
      simp only [decodeInfraction, h] at hp ⊢
      rw [hp]
    · intro h
      simp [decodeInfraction, h]
    · intro h
      simp [decodeInfraction, h]
    · intro h
      simp [decodeInfraction, h]

/-- Witness for C6 (amended): concrete failure inputs and concrete
defaulted fields. -/
theorem loadEmployees_defensive_spec_witness :
    loadEmployeesRaw (fun _ => none) (fun _ => none) 0 "2025-01-01"
        (fun _ => "f") (some "garbage") = [] ∧
    ((decodeEmployee (fun _ => none) 0 "2025-01-01" (fun _ => "f") 0
        (Json.obj [])).1).name = "Employee" ∧
    ((decodeInfraction "2025-01-01" (fun _ => "f") 0 (Json.obj [])).1).type =
      "Tardy (16-59 min)" ∧
    ((decodeInfraction "2025-01-01" (fun _ => "f") 0
        (Json.obj [("type", Json.str "No Call / No Show")])).1).points = 8 :=
  ⟨(loadEmployees_defensive_spec (fun _ => none) (fun _ => none) 0
      "2025-01-01" (fun _ => "f")).2.1 "garbage" rfl,
   ((loadEmployees_defensive_spec (fun _ => none) (fun _ => none) 0
      "2025-01-01" (fun _ => "f")).2.2.2.2.1 0 (Json.obj [])).2.2 rfl,
   ((loadEmployees_defensive_spec (fun _ => none) (fun _ => none) 0
      "2025-01-01" (fun _ => "f")).2.2.2.2.2 0 (Json.obj [])).1 rfl,
   ((loadEmployees_defensive_spec (fun _ => none) (fun _ => none) 0
      "2025-01-01" (fun _ => "f")).2.2.2.2.2 0
      (Json.obj [("type", Json.str "No Call / No Show")])).2.2.1 8 rfl rfl⟩

end Attendance
